import Mathlib

/-!
Shallow embedding of `src/notebooks/5.tflite-model-for-pico.ipynb`.

The notebook is a straight-line script: load a trained Keras model,
configure the TFLite converter (default optimizations plus a
representative-dataset calibration generator built from the first batch of
the test dataset), convert, write the flatbuffer to
`../artifacts/eurosat.tflite`, run `xxd -i` to transcode it into a C header,
move the header to `../lite/pico/eurosat.h`, print the two file sizes,
re-load the quantized model with `tf.lite.Interpreter`, run inference over
every unbatched validation record, and print the `accuracy_score` of the
resulting predictions.

External library calls (Keras loader, TFLite converter, interpreter, the
`xxd` process launch) are modelled as oracle fields of an `Env` record;
the notebook's own glue code (the generator closure, the evaluation loop,
the file writes/moves, the printed report) is embedded directly.
-/

namespace EurosatPico

/-- Python-level exceptions surfacing to the notebook. -/
inductive Err where
  | lib : Nat → Err
  | stopIteration : Err
  | fileNotFound : Err
deriving DecidableEq, Repr

/-- Numpy dtypes relevant to the notebook. -/
inductive Dtype where
  | float32
  | uint8
  | int32
deriving DecidableEq, Repr

/-- A numpy array: a dtype tag, a shape, and a flattened payload.
Exact floating-point values are irrelevant to every claim, so the payload
is carried opaquely as integers. -/
structure NpArray where
  dtype : Dtype
  shape : List Nat
  data : List Int
deriving DecidableEq, Repr

/-- Contents of a file on disk: the `.tflite` flatbuffer is binary, the
generated header is ASCII text. -/
inductive FileContent where
  | bin : List Nat → FileContent
  | txt : List Char → FileContent
deriving DecidableEq, Repr

/-- One line printed by the notebook: either a fixed status message or a
line whose payload is a numeric value. -/
inductive PLine where
  | msg : String → PLine
  | num : Rat → PLine
deriving DecidableEq, Repr

/-- The operations the notebook performs, in the order its cells run. -/
inductive Step where
  | loadModel
  | configureQuantization
  | convert
  | serializeBinary
  | transcode
  | moveHeader
  | reportSizes
  | loadInterpreter
  | allocateTensors
  | evalRecord
  | computeAccuracy
deriving DecidableEq, Repr

/-! ### The `xxd -i` binary-to-source transcoder

Modelled from the spec: the notebook shells out to the external `xxd`
tool (`xxd -i eurosat.tflite eurosat.h`), whose code is not part of this
repository.  `xxd -i` renders the input file as a C `unsigned char` array:
a declaration line, the bytes as lowercase two-digit `0x..` literals,
twelve per line separated by commas, and a closing `_len` variable holding
the byte count in decimal. -/

/-- Lowercase hex digit for `n < 16`. -/
def hexDigitChar (n : Nat) : Char :=
  if n < 10 then Char.ofNat (48 + n) else Char.ofNat (87 + n)

/-- The C literal `0xhh` for one byte. -/
def byteLit (b : Nat) : List Char :=
  ['0', 'x', hexDigitChar (b / 16), hexDigitChar (b % 16)]

/-- Separator following the `k`-th byte: a line break after every twelfth
byte, otherwise a simple comma-space. -/
def sepAfter (k : Nat) : List Char :=
  if k % 12 = 11 then [',', '\n', ' ', ' '] else [',', ' ']

/-- The comma-separated byte literals of the array body; `k` counts bytes
already rendered, to place line breaks. -/
def xxdBody : List Nat → Nat → List Char
  | [], _ => []
  | [b], _ => byteLit b
  | b :: b2 :: bs, k => byteLit b ++ sepAfter k ++ xxdBody (b2 :: bs) (k + 1)

/-- Decimal digits of `n`, most significant first (accumulator form). -/
def natToDecAux : Nat → List Char → List Char
  | 0, acc => acc
  | n + 1, acc => natToDecAux ((n + 1) / 10) (Char.ofNat (48 + (n + 1) % 10) :: acc)
termination_by n _ => n
decreasing_by
  exact Nat.lt_succ_of_le (Nat.le_of_lt_succ (Nat.div_lt_self (Nat.succ_pos n) (by omega)))

/-- Decimal rendering of a natural number. -/
def natToDec (n : Nat) : List Char :=
  if n = 0 then ['0'] else natToDecAux n []

/-- `xxd -i` derives the C identifier from the input filename by replacing
characters such as `.` with `_`. -/
def cIdentOf (s : String) : String :=
  String.mk (s.toList.map (fun c => if c = '.' then '_' else c))

/-- Filename handed to `xxd` in the notebook. -/
def tfliteName : String := "eurosat.tflite"

/-- The full text of the header generated by `xxd -i`. -/
def xxdHeader (name : String) (bs : List Nat) : List Char :=
  "unsigned char ".toList ++ name.toList ++ "[] = \x7b\n  ".toList
    ++ xxdBody bs 0
    ++ "\n\x7d;\nunsigned int ".toList ++ name.toList ++ "_len = ".toList
    ++ natToDec bs.length ++ ";\n".toList

/-! ### Decoding the embeddable array

A decoder for the generated header: scan the text left to right and read
off every `0xhh` byte literal.  This is the reference meaning of
"decoding the array": the compiled C array holds exactly these bytes. -/

/-- Value of one hex digit character. -/
def hexVal (c : Char) : Option Nat :=
  if 48 ≤ c.toNat ∧ c.toNat ≤ 57 then some (c.toNat - 48)
  else if 97 ≤ c.toNat ∧ c.toNat ≤ 102 then some (c.toNat - 87)
  else none

/-- Scanner state: how much of a `0xhh` literal has been read. -/
inductive DecSt where
  | start
  | sawZero
  | sawX
  | sawHi : Nat → DecSt
deriving DecidableEq, Repr

/-- Left-to-right scan collecting every `0xhh` byte literal. -/
def decodeAux : DecSt → List Char → List Nat
  | _, [] => []
  | DecSt.start, c :: rest =>
      if c = '0' then decodeAux DecSt.sawZero rest else decodeAux DecSt.start rest
  | DecSt.sawZero, c :: rest =>
      if c = 'x' then decodeAux DecSt.sawX rest
      else if c = '0' then decodeAux DecSt.sawZero rest
      else decodeAux DecSt.start rest
  | DecSt.sawX, c :: rest =>
      match hexVal c with
      | some h => decodeAux (DecSt.sawHi h) rest
      | none => if c = '0' then decodeAux DecSt.sawZero rest else decodeAux DecSt.start rest
  | DecSt.sawHi h, c :: rest =>
      match hexVal c with
      | some l => (16 * h + l) :: decodeAux DecSt.start rest
      | none => if c = '0' then decodeAux DecSt.sawZero rest else decodeAux DecSt.start rest

/-- Bytes encoded in a piece of generated source text. -/
def decodeBytes (s : List Char) : List Nat :=
  decodeAux DecSt.start s

/-! ### Notebook glue functions -/

/-- `np.array(image, dtype=np.float32, ndmin=4)`: retag the dtype as
float32 and pad the shape with leading `1` axes up to four dimensions.
The numeric float conversion itself is value-preserving on the opaque
payload. -/
def npAsFloat32Ndmin4 (a : NpArray) : NpArray :=
  { dtype := Dtype.float32
    shape := if 4 ≤ a.shape.length then a.shape
             else List.replicate (4 - a.shape.length) 1 ++ a.shape
    data := a.data }

/-- The notebook's calibration generator: take the first batch of the test
dataset (`test.take(1).as_numpy_iterator().next()`, which raises
`StopIteration` when the dataset is empty, modelled as `none`) and yield,
for each image of that batch, a singleton list holding the image as a
float32 array of at least four dimensions. -/
def representative_dataset_generator (test : List (List NpArray × List Nat)) :
    Option (List (List NpArray)) :=
  match test with
  | [] => none
  | (images, _labels) :: _ => some (images.map (fun image => [npAsFloat32Ndmin4 image]))

/-- `np.argmax` over a flattened output tensor: index of the first
occurrence of the maximal element (`0` for the empty tensor, which the
notebook never produces). -/
def npArgmaxAux : List Int → Nat → Int → Nat → Nat
  | [], _, _, best => best
  | x :: rest, i, bv, best =>
      if bv < x then npArgmaxAux rest (i + 1) x i else npArgmaxAux rest (i + 1) bv best

/-- `np.argmax` on the flattened data. -/
def npArgmax : List Int → Nat
  | [] => 0
  | x :: rest => npArgmaxAux rest 1 x 0

/-- `sklearn.metrics.accuracy_score`: the fraction of positions where the
two label lists agree.  It is only defined for two equal-length, nonempty
label sequences (sklearn raises otherwise); `none` models the raised
exception. -/
def accuracy_score (yTrue yPred : List Nat) : Option Rat :=
  if yTrue.length = yPred.length ∧ yTrue.length ≠ 0 then
    some ((((yTrue.zip yPred).countP (fun ab => ab.1 == ab.2) : Nat) : Rat) / (yTrue.length : Rat))
  else none

/-- One iteration of the notebook's evaluation loop: append the record's
true label to `true` and the argmax of the interpreter's output to `pred`. -/
def evalStep (infer : NpArray → List Int) (acc : List Nat × List Nat)
    (r : NpArray × Nat) : List Nat × List Nat :=
  (acc.1 ++ [r.2], acc.2 ++ [npArgmax (infer r.1)])

/-- The evaluation loop over the unbatched validation records, as a fold in
iteration order. -/
def evalLoop (infer : NpArray → List Int) (records : List (NpArray × Nat)) :
    List Nat × List Nat :=
  records.foldl (evalStep infer) ([], [])

/-! ### The pipeline as a state-passing computation

The run's observable state: the filesystem, the trace of operations
performed so far, the lines printed, and the accuracy value once computed.
A computation either returns a value or stops with the first uncaught
exception, exactly like the straight-line notebook. -/

structure PState where
  fs : String → Option FileContent
  trace : List Step
  out : List PLine
  score : Option Rat

/-- A notebook computation: state in, result-or-exception and state out. -/
def M (α : Type) : Type := PState → Except Err α × PState

/-- Return a value, leaving the state unchanged. -/
def M.ret {α : Type} (a : α) : M α := fun st => (Except.ok a, st)

/-- Sequence two computations; an exception in the first skips the second.
The notebook contains no `try`/`except`, so this is its only composition. -/
def M.bind {α β : Type} (x : M α) (f : α → M β) : M β := fun st =>
  match x st with
  | (Except.ok a, st') => f a st'
  | (Except.error e, st') => (Except.error e, st')

/-- Perform one traced operation whose outcome is the given result. -/
def liftE {α : Type} (s : Step) (r : Except Err α) : M α := fun st =>
  (r, { st with trace := st.trace ++ [s] })

/-- Record a pure, infallible operation in the trace. -/
def logStep (s : Step) : M Unit := fun st =>
  (Except.ok (), { st with trace := st.trace ++ [s] })

/-- Print one line. -/
def emit (l : PLine) : M Unit := fun st =>
  (Except.ok (), { st with out := st.out ++ [l] })

/-- Create/overwrite (or, with `none`, remove) one file. -/
def setFile (p : String) (c : Option FileContent) : M Unit := fun st =>
  (Except.ok (), { st with fs := fun q => if q = p then c else st.fs q })

/-- Record the computed accuracy. -/
def setScore (q : Rat) : M Unit := fun st =>
  (Except.ok (), { st with score := some q })

/-- Paths touched by the notebook. -/
def tflitePath : String := "../artifacts/eurosat.tflite"

/-- Where `xxd` writes the generated header (its working directory is
`../artifacts`). -/
def artifactsHeaderPath : String := "../artifacts/eurosat.h"

/-- Final location of the header in the Pico source tree. -/
def picoHeaderPath : String := "../lite/pico/eurosat.h"

/-- Outcomes of the external library calls and the input datasets.  Each
`Except` field is the behavior of one library call in this run; `test` and
`val` are the loaded datasets (`val` already unbatched into records). -/
structure Env where
  fs0 : String → Option FileContent
  loadModel : Except Err Nat
  kerasInfer : Nat → NpArray → List Int
  convert : Nat → List (List NpArray) → Except Err (List Nat)
  writeResult : Except Err Unit
  xxdLaunch : Except Err Int
  interpLoad : Except Err Unit
  alloc : Except Err Unit
  infer : NpArray → Except Err (List Int)
  test : List (List NpArray × List Nat)
  val : List (NpArray × Nat)

/-- `subprocess.run(["xxd", "-i", "eurosat.tflite", "eurosat.h"], cwd=...)`.
Launching the process can raise (e.g. `xxd` not installed); once launched,
`subprocess.run` is called without `check=True`, so a nonzero exit status
raises nothing.  On exit status `0`, `xxd` has written the header rendering
of the current `.tflite` file contents. -/
def xxdRun (env : Env) : M Unit := fun st =>
  match env.xxdLaunch with
  | Except.error e => (Except.error e, { st with trace := st.trace ++ [Step.transcode] })
  | Except.ok code =>
      if code = 0 then
        match st.fs tflitePath with
        | some (FileContent.bin bs) =>
            (Except.ok (),
             { st with trace := st.trace ++ [Step.transcode],
                       fs := fun q =>
                         if q = artifactsHeaderPath then
                           some (FileContent.txt (xxdHeader (cIdentOf tfliteName) bs))
                         else st.fs q })
        | _ => (Except.ok (), { st with trace := st.trace ++ [Step.transcode] })
      else (Except.ok (), { st with trace := st.trace ++ [Step.transcode] })

/-- `shutil.move(src, dst)`: raises `FileNotFoundError` when the source is
missing, otherwise the content now lives at `dst` and no longer at `src`. -/
def shutilMove (src dst : String) : M Unit := fun st =>
  match st.fs src with
  | none => (Except.error Err.fileNotFound, { st with trace := st.trace ++ [Step.moveHeader] })
  | some c =>
      (Except.ok (),
       { st with trace := st.trace ++ [Step.moveHeader],
                 fs := fun q => if q = src then none else if q = dst then some c else st.fs q })

/-- Byte size of a file (the header is ASCII: one byte per character). -/
def fileSize : FileContent → Nat
  | FileContent.bin bs => bs.length
  | FileContent.txt cs => cs.length

/-- `pathlib.Path(p).stat().st_size`: raises when the file is missing. -/
def statSize (p : String) : M Nat := fun st =>
  match st.fs p with
  | none => (Except.error Err.fileNotFound, st)
  | some c => (Except.ok (fileSize c), st)

/-- Cell 4: stat both produced files and print their sizes in kilobytes. -/
def reportSizes : M Unit :=
  M.bind (logStep Step.reportSizes) (fun _ =>
  M.bind (statSize tflitePath) (fun t =>
  M.bind (statSize picoHeaderPath) (fun h =>
  M.bind (emit (PLine.num ((t : Rat) / 1024))) (fun _ =>
  emit (PLine.num ((h : Rat) / 1024))))))

/-- `tf.lite.Interpreter('../artifacts/eurosat.tflite')`: opening a missing
file raises; otherwise the library call's own outcome decides. -/
def interpLoadStep (env : Env) : M Unit := fun st =>
  match st.fs tflitePath with
  | none => (Except.error Err.fileNotFound, { st with trace := st.trace ++ [Step.loadInterpreter] })
  | some _ => (env.interpLoad, { st with trace := st.trace ++ [Step.loadInterpreter] })

/-- The evaluation loop of cell 6: per record, one traced interpreter
invocation appending the true label and the argmax of the output tensor. -/
def evalLoopM (infer : NpArray → Except Err (List Int)) :
    List (NpArray × Nat) → List Nat × List Nat → M (List Nat × List Nat)
  | [], acc => M.ret acc
  | r :: rest, acc =>
      M.bind (liftE Step.evalRecord (infer r.1)) (fun output =>
        evalLoopM infer rest (acc.1 ++ [r.2], acc.2 ++ [npArgmax output]))

/-- `metrics.accuracy_score(true, pred)` followed by the accuracy print;
an undefined score is a raised library exception. -/
def accuracyStep (t p : List Nat) : M Unit :=
  M.bind (logStep Step.computeAccuracy) (fun _ =>
    match accuracy_score t p with
    | none => fun st => (Except.error (Err.lib 0), st)
    | some q => M.bind (setScore q) (fun _ => emit (PLine.num (q * 100))))

/-- Everything after the header move: the status print of cell 3, the size
report of cell 4, and the whole of cell 6 (interpreter reload, tensor
allocation, evaluation loop, accuracy). -/
def pipelineTail (env : Env) : M Unit :=
  M.bind (emit (PLine.msg "Model Converted")) (fun _ =>
  M.bind reportSizes (fun _ =>
  M.bind (interpLoadStep env) (fun _ =>
  M.bind (liftE Step.allocateTensors env.alloc) (fun _ =>
  M.bind (evalLoopM env.infer env.val ([], [])) (fun tp =>
  accuracyStep tp.1 tp.2)))))

/-- The whole notebook, top to bottom, in source order: cells 3 (load,
configure, convert, serialize, transcode, move, status print), 4 (size
report) and 6 (interpreter reload, tensor allocation, evaluation loop,
accuracy).  The converter pulls the representative dataset when `convert`
runs, so a `StopIteration` from the generator surfaces there. -/
def runPipeline (env : Env) : M Unit :=
  M.bind (liftE Step.loadModel env.loadModel) (fun model =>
  M.bind (logStep Step.configureQuantization) (fun _ =>
  M.bind (liftE Step.convert
      (match representative_dataset_generator env.test with
       | none => Except.error Err.stopIteration
       | some rep => env.convert model rep)) (fun bytes =>
  M.bind (liftE Step.serializeBinary env.writeResult) (fun _ =>
  M.bind (setFile tflitePath (some (FileContent.bin bytes))) (fun _ =>
  M.bind (xxdRun env) (fun _ =>
  M.bind (shutilMove artifactsHeaderPath picoHeaderPath) (fun _ =>
  pipelineTail env)))))))

/-- The state at notebook start. -/
def initState (env : Env) : PState :=
  { fs := env.fs0, trace := [], out := [], score := none }

/-- One full top-to-bottom run. -/
def runP (env : Env) : Except Err Unit × PState := runPipeline env (initState env)

/-- The run's final result (`ok` or the first uncaught exception). -/
def resultOf (env : Env) : Except Err Unit := (runP env).1

/-- The sequence of operations the run performed. -/
def traceOf (env : Env) : List Step := (runP env).2.trace

/-- The lines the run printed. -/
def outOf (env : Env) : List PLine := (runP env).2.out

/-- The filesystem after the run. -/
def fsOf (env : Env) : String → Option FileContent := (runP env).2.fs

/-- The accuracy value the run computed, if it got that far. -/
def scoreOf (env : Env) : Option Rat := (runP env).2.score

/-! ### Derived observables and the success predicate -/

/-- Outcome of `converter.convert()`: the converter pulls the
representative dataset from the generator and quantizes the loaded model. -/
def convertCall (env : Env) : Except Err (List Nat) :=
  match env.loadModel with
  | Except.error e => Except.error e
  | Except.ok model =>
      match representative_dataset_generator env.test with
      | none => Except.error Err.stopIteration
      | some rep => env.convert model rep

/-- The serialized flatbuffer bytes of a successful conversion. -/
def convBytes (env : Env) : List Nat :=
  match convertCall env with
  | Except.ok bs => bs
  | Except.error _ => []

/-- The output tensor of the quantized interpreter on one image (ignoring
the error case, which cannot occur on a successful run). -/
def inferVal (env : Env) (image : NpArray) : List Int :=
  match env.infer image with
  | Except.ok o => o
  | Except.error _ => []

/-- Number of validation records whose true label equals the argmax of the
quantized model's output on that record. -/
def countCorrect (env : Env) : Nat :=
  env.val.countP (fun r => r.2 == npArgmax (inferVal env r.1))

/-- The validation accuracy of the quantized model. -/
def scoreVal (env : Env) : Rat :=
  ((countCorrect env : Nat) : Rat) / ((env.val.length : Nat) : Rat)

/-- Text of the generated header for this run's conversion. -/
def headerChars (env : Env) : List Char :=
  xxdHeader (cIdentOf tfliteName) (convBytes env)

/-- The four lines a successful run prints, in order: the status message,
the two sizes in kilobytes, and the accuracy as a percentage. -/
def reportOf (env : Env) : List PLine :=
  [PLine.msg "Model Converted",
   PLine.num (((convBytes env).length : Rat) / 1024),
   PLine.num (((headerChars env).length : Rat) / 1024),
   PLine.num (scoreVal env * 100)]

/-- The filesystem a successful run leaves behind. -/
def finalFs (env : Env) (p : String) : Option FileContent :=
  if p = picoHeaderPath then some (FileContent.txt (headerChars env))
  else if p = artifactsHeaderPath then none
  else if p = tflitePath then some (FileContent.bin (convBytes env))
  else env.fs0 p

/-- The fixed operation sequence of a complete run over `n` validation
records. -/
def fullTrace (n : Nat) : List Step :=
  [Step.loadModel, Step.configureQuantization, Step.convert, Step.serializeBinary,
   Step.transcode, Step.moveHeader, Step.reportSizes,
   Step.loadInterpreter, Step.allocateTensors]
    ++ List.replicate n Step.evalRecord ++ [Step.computeAccuracy]

/-- How many printed lines carry a numeric value. -/
def numericPrints (out : List PLine) : Nat :=
  out.countP (fun l => match l with | PLine.num _ => true | PLine.msg _ => false)

/-- The original (un-quantized) Keras model's validation accuracy, computed
the same way the notebook scores the TFLite model.  The notebook never
computes this quantity; it exists here only to state what the report would
have to depend on in order to quantify the accuracy difference. -/
def kerasAccuracy (env : Env) : Option Rat :=
  match env.loadModel with
  | Except.error _ => none
  | Except.ok m =>
      accuracy_score (env.val.map (fun r => r.2))
        (env.val.map (fun r => npArgmax (env.kerasInfer m r.1)))

/-- Every library call of the run succeeds (with `xxd` exiting `0`) and the
validation set is nonempty: the premise of a clean top-to-bottom run. -/
structure AllOk (env : Env) : Prop where
  hload : env.loadModel.isOk = true
  hconv : (convertCall env).isOk = true
  hwrite : env.writeResult = Except.ok ()
  hxxd : env.xxdLaunch = Except.ok 0
  hinterp : env.interpLoad = Except.ok ()
  halloc : env.alloc = Except.ok ()
  hinfer : env.val.all (fun r => (env.infer r.1).isOk) = true
  hval : env.val ≠ []

/-! ### Concrete environments for witnesses and counterexamples -/

/-- A 64×64×3 test image. -/
def img0 : NpArray := { dtype := Dtype.uint8, shape := [64, 64, 3], data := [7] }

/-- A fully successful tiny run: one calibration image, one validation
record with label `1`, interpreter output `[0, 5]` (argmax `1`, correct). -/
def cEnv : Env :=
  { fs0 := fun _ => none
    loadModel := Except.ok 0
    kerasInfer := fun _ _ => [0, 5]
    convert := fun _ _ => Except.ok [28, 0, 255]
    writeResult := Except.ok ()
    xxdLaunch := Except.ok 0
    interpLoad := Except.ok ()
    alloc := Except.ok ()
    infer := fun _ => Except.ok [0, 5]
    test := [([img0], [3])]
    val := [(img0, 1)] }

/-- Same run with a different original model: its predictions now disagree
with the labels, so its validation accuracy differs from `cEnv`'s.  The
quantized path is untouched. -/
def cEnvB : Env := { cEnv with kerasInfer := fun _ _ => [5, 0] }

/-- A run where the `xxd` transcode fails (exit status `1`) with no stale
header on disk. -/
def cEnvXxdFail : Env := { cEnv with xxdLaunch := Except.ok 1 }

/-- A run where the `xxd` transcode fails (exit status `1`) while a stale
header from an earlier run is still in `../artifacts`. -/
def cEnvStale : Env :=
  { cEnv with
      xxdLaunch := Except.ok 1
      fs0 := fun p => if p = artifactsHeaderPath then some (FileContent.txt ['o', 'l', 'd']) else none }

/-! ### Round trip between the binary and the generated source array -/

/-- Scanner states outside any half-read literal. -/
def SafeSt (st : DecSt) : Prop := st = DecSt.start ∨ st = DecSt.sawZero

lemma decodeAux_nil (st : DecSt) : decodeAux st [] = [] := by
  cases st <;> rfl

lemma decodeAux_start_cons (c : Char) (l : List Char) :
    decodeAux DecSt.start (c :: l) =
      if c = '0' then decodeAux DecSt.sawZero l else decodeAux DecSt.start l := rfl

lemma decodeAux_sawZero_cons (c : Char) (l : List Char) :
    decodeAux DecSt.sawZero (c :: l) =
      if c = 'x' then decodeAux DecSt.sawX l
      else if c = '0' then decodeAux DecSt.sawZero l
      else decodeAux DecSt.start l := rfl

lemma decodeAux_sawX_cons (c : Char) (l : List Char) :
    decodeAux DecSt.sawX (c :: l) =
      (match hexVal c with
       | some h => decodeAux (DecSt.sawHi h) l
       | none => if c = '0' then decodeAux DecSt.sawZero l else decodeAux DecSt.start l) := rfl

lemma decodeAux_sawHi_cons (h : Nat) (c : Char) (l : List Char) :
    decodeAux (DecSt.sawHi h) (c :: l) =
      (match hexVal c with
       | some lo => (16 * h + lo) :: decodeAux DecSt.start l
       | none => if c = '0' then decodeAux DecSt.sawZero l else decodeAux DecSt.start l) := rfl

lemma decodeAux_sawX_hex (c : Char) (l : List Char) (h : Nat)
    (hc : hexVal c = some h) :
    decodeAux DecSt.sawX (c :: l) = decodeAux (DecSt.sawHi h) l := by
  rw [decodeAux_sawX_cons, hc]

lemma decodeAux_sawHi_hex (h : Nat) (c : Char) (l : List Char) (lo : Nat)
    (hc : hexVal c = some lo) :
    decodeAux (DecSt.sawHi h) (c :: l) = (16 * h + lo) :: decodeAux DecSt.start l := by
  rw [decodeAux_sawHi_cons, hc]

lemma hexVal_hexDigitChar (n : Nat) (h : n < 16) : hexVal (hexDigitChar n) = some n := by
  interval_cases n <;> decide

/-- Scanning text free of `x` emits nothing and lands back in a safe
state, whatever follows. -/
lemma decodeAux_skip :
    ∀ (u : List Char), (∀ c ∈ u, c ≠ 'x') → ∀ st, SafeSt st →
      ∃ st', SafeSt st' ∧ ∀ t, decodeAux st (u ++ t) = decodeAux st' t := by
  intro u
  induction u with
  | nil =>
      intro _ st hst
      exact ⟨st, hst, fun t => rfl⟩
  | cons c u ih =>
      intro hx st hst
      have hcx : c ≠ 'x' := hx c (List.mem_cons_self c u)
      have hx' : ∀ c' ∈ u, c' ≠ 'x' := fun c' hc' => hx c' (List.mem_cons_of_mem c hc')
      have hstep : ∀ t, decodeAux st (c :: (u ++ t)) =
          decodeAux (if c = '0' then DecSt.sawZero else DecSt.start) (u ++ t) := by
        intro t
        rcases hst with h0 | h0 <;> subst h0
        · rw [decodeAux_start_cons]
          split_ifs <;> rfl
        · rw [decodeAux_sawZero_cons, if_neg hcx]
          split_ifs <;> rfl
      have hsafe : SafeSt (if c = '0' then DecSt.sawZero else DecSt.start) := by
        by_cases h0 : c = '0'
        · rw [if_pos h0]; exact Or.inr rfl
        · rw [if_neg h0]; exact Or.inl rfl
      obtain ⟨st', hst', heq⟩ := ih hx' _ hsafe
      exact ⟨st', hst', fun t => by
        rw [List.cons_append, hstep t, heq t]⟩

/-- From a safe state, one `0xhh` literal decodes to its byte and returns
to the start state. -/
lemma decodeAux_lit (st : DecSt) (hst : SafeSt st) (b : Nat) (hb : b < 256)
    (t : List Char) :
    decodeAux st (byteLit b ++ t) = b :: decodeAux DecSt.start t := by
  have h1 : b / 16 < 16 := by omega
  have h2 : b % 16 < 16 := by omega
  have step0 : decodeAux st ('0' :: ('x' :: (hexDigitChar (b / 16) :: (hexDigitChar (b % 16) :: t)))) =
      decodeAux DecSt.sawZero ('x' :: (hexDigitChar (b / 16) :: (hexDigitChar (b % 16) :: t))) := by
    rcases hst with h0 | h0 <;> subst h0
    · rw [decodeAux_start_cons, if_pos rfl]
    · rw [decodeAux_sawZero_cons, if_neg (by decide), if_pos rfl]
  calc decodeAux st (byteLit b ++ t)
      = decodeAux DecSt.sawZero ('x' :: (hexDigitChar (b / 16) :: (hexDigitChar (b % 16) :: t))) := step0
    _ = decodeAux DecSt.sawX (hexDigitChar (b / 16) :: (hexDigitChar (b % 16) :: t)) := by
        rw [decodeAux_sawZero_cons, if_pos rfl]
    _ = decodeAux (DecSt.sawHi (b / 16)) (hexDigitChar (b % 16) :: t) := by
        rw [decodeAux_sawX_hex _ _ _ (hexVal_hexDigitChar _ h1)]
    _ = (16 * (b / 16) + b % 16) :: decodeAux DecSt.start t := by
        rw [decodeAux_sawHi_hex _ _ _ _ (hexVal_hexDigitChar _ h2)]
    _ = b :: decodeAux DecSt.start t := by
        congr 1
        omega

lemma sepAfter_no_x (k : Nat) : ∀ c ∈ sepAfter k, c ≠ 'x' := by
  unfold sepAfter
  split <;> decide

/-- The rendered array body decodes to exactly its bytes. -/
lemma decode_xxdBody :
    ∀ (bs : List Nat) (b : Nat), (∀ y ∈ b :: bs, y < 256) →
      ∀ (k : Nat) (st : DecSt), SafeSt st → ∀ t,
        decodeAux st (xxdBody (b :: bs) k ++ t) = (b :: bs) ++ decodeAux DecSt.start t := by
  intro bs
  induction bs with
  | nil =>
      intro b hb k st hst t
      have : xxdBody [b] k = byteLit b := rfl
      rw [this, decodeAux_lit st hst b (hb b (List.mem_cons_self b [])) t]
      rfl
  | cons b2 bs ih =>
      intro b hb k st hst t
      have hb256 : b < 256 := hb b (List.mem_cons_self b (b2 :: bs))
      have hb2 : ∀ y ∈ b2 :: bs, y < 256 := fun y hy =>
        hb y (List.mem_cons_of_mem b hy)
      have hbody : xxdBody (b :: b2 :: bs) k = byteLit b ++ (sepAfter k ++ xxdBody (b2 :: bs) (k + 1)) := by
        rw [xxdBody, List.append_assoc]
      rw [hbody, List.append_assoc, decodeAux_lit st hst b hb256]
      obtain ⟨st', hst', heq⟩ :=
        decodeAux_skip (sepAfter k) (sepAfter_no_x k) DecSt.start (Or.inl rfl)
      rw [List.append_assoc, heq (xxdBody (b2 :: bs) (k + 1) ++ t),
        ih b2 hb2 (k + 1) st' hst']
      rfl

lemma digitChar_ne_x (d : Nat) (hd : d < 10) : Char.ofNat (48 + d) ≠ 'x' := by
  interval_cases d <;> decide

lemma natToDecAux_no_x :
    ∀ (n : Nat) (acc : List Char), (∀ c ∈ acc, c ≠ 'x') →
      ∀ c ∈ natToDecAux n acc, c ≠ 'x' := by
  intro n
  induction n using Nat.strong_induction_on with
  | _ n ih =>
      intro acc hacc
      match n with
      | 0 =>
          rw [natToDecAux]
          exact hacc
      | m + 1 =>
          rw [natToDecAux]
          refine ih ((m + 1) / 10) (Nat.div_lt_self (Nat.succ_pos m) (by omega)) _ ?_
          intro c hc
          rcases List.mem_cons.mp hc with h | h
          · subst h
            exact digitChar_ne_x _ (Nat.mod_lt _ (by omega))
          · exact hacc c h

lemma natToDec_no_x (n : Nat) : ∀ c ∈ natToDec n, c ≠ 'x' := by
  unfold natToDec
  split
  · decide
  · exact natToDecAux_no_x n [] (by intro c hc; cases hc)

lemma append_no_x {u v : List Char} (hu : ∀ c ∈ u, c ≠ 'x') (hv : ∀ c ∈ v, c ≠ 'x') :
    ∀ c ∈ u ++ v, c ≠ 'x' := by
  intro c hc
  rcases List.mem_append.mp hc with h | h
  · exact hu c h
  · exact hv c h

/-- The tail of the generated header (everything after the array body)
contains no `x`, provided the C identifier does not. -/
lemma headerTail_no_x (name : String) (hn : ∀ c ∈ name.toList, c ≠ 'x') (len : Nat) :
    ∀ c ∈ "\n\x7d;\nunsigned int ".toList ++ name.toList ++ "_len = ".toList
        ++ natToDec len ++ ";\n".toList, c ≠ 'x' := by
  refine append_no_x (append_no_x (append_no_x (append_no_x (by decide) hn) (by decide))
    (natToDec_no_x len)) (by decide)

/-- Round trip: decoding the generated header recovers exactly the bytes
of the binary it was transcoded from. -/
lemma decode_xxdHeader (name : String) (hn : ∀ c ∈ name.toList, c ≠ 'x')
    (bs : List Nat) (hb : ∀ b ∈ bs, b < 256) :
    decodeBytes (xxdHeader name bs) = bs := by
  have hpre : ∀ c ∈ "unsigned char ".toList ++ name.toList ++ "[] = \x7b\n  ".toList, c ≠ 'x' :=
    append_no_x (append_no_x (by decide) hn) (by decide)
  obtain ⟨st1, hst1, heq1⟩ := decodeAux_skip _ hpre DecSt.start (Or.inl rfl)
  cases bs with
  | nil =>
      obtain ⟨st2, hst2, heq2⟩ :=
        decodeAux_skip _ (headerTail_no_x name hn (List.length ([] : List Nat))) st1 hst1
      have h1 : xxdHeader name [] =
          ("unsigned char ".toList ++ name.toList ++ "[] = \x7b\n  ".toList)
            ++ (("\n\x7d;\nunsigned int ".toList ++ name.toList ++ "_len = ".toList
                ++ natToDec (List.length ([] : List Nat)) ++ ";\n".toList) ++ []) := by
        unfold xxdHeader xxdBody
        simp
      rw [decodeBytes, h1, heq1, heq2, decodeAux_nil]
  | cons b bs' =>
      obtain ⟨st3, hst3, heq3⟩ :=
        decodeAux_skip _ (headerTail_no_x name hn (b :: bs').length) DecSt.start (Or.inl rfl)
      have h1 : xxdHeader name (b :: bs') =
          ("unsigned char ".toList ++ name.toList ++ "[] = \x7b\n  ".toList)
            ++ (xxdBody (b :: bs') 0
              ++ (("\n\x7d;\nunsigned int ".toList ++ name.toList ++ "_len = ".toList
                  ++ natToDec (b :: bs').length ++ ";\n".toList) ++ [])) := by
        unfold xxdHeader
        simp
      rw [decodeBytes, h1, heq1, decode_xxdBody bs' b hb 0 st1 hst1, heq3, decodeAux_nil,
        List.append_nil]

/-! ### Characterizing a successful run -/

@[simp] lemma tflite_ne_art : ¬ tflitePath = artifactsHeaderPath := by decide

@[simp] lemma tflite_ne_pico : ¬ tflitePath = picoHeaderPath := by decide

@[simp] lemma art_ne_tflite : ¬ artifactsHeaderPath = tflitePath := by decide

@[simp] lemma art_ne_pico : ¬ artifactsHeaderPath = picoHeaderPath := by decide

@[simp] lemma pico_ne_tflite : ¬ picoHeaderPath = tflitePath := by decide

@[simp] lemma pico_ne_art : ¬ picoHeaderPath = artifactsHeaderPath := by decide

/-- The fold of the evaluation loop, with the accumulator made explicit. -/
lemma evalLoop_foldl (infer : NpArray → List Int) :
    ∀ (l : List (NpArray × Nat)) (acc : List Nat × List Nat),
      l.foldl (evalStep infer) acc =
        (acc.1 ++ l.map (fun r => r.2), acc.2 ++ l.map (fun r => npArgmax (infer r.1))) := by
  intro l
  induction l with
  | nil => intro acc; simp
  | cons r l ih =>
      intro acc
      rw [List.foldl_cons, ih]
      simp [evalStep]

/-- The evaluation loop returns the labels and the per-record argmax
predictions, in iteration order. -/
lemma evalLoop_eq (infer : NpArray → List Int) (l : List (NpArray × Nat)) :
    evalLoop infer l = (l.map (fun r => r.2), l.map (fun r => npArgmax (infer r.1))) := by
  simpa [evalLoop] using evalLoop_foldl infer l ([], [])

/-- When every interpreter invocation succeeds, the traced loop performs
one `evalRecord` per record and accumulates labels and predictions. -/
lemma evalLoopM_ok (env : Env) :
    ∀ (l : List (NpArray × Nat)), (∀ r ∈ l, (env.infer r.1).isOk = true) →
      ∀ (acc : List Nat × List Nat) (st : PState),
        evalLoopM env.infer l acc st =
          (Except.ok (acc.1 ++ l.map (fun r => r.2),
                      acc.2 ++ l.map (fun r => npArgmax (inferVal env r.1))),
           { st with trace := st.trace ++ List.replicate l.length Step.evalRecord }) := by
  intro l
  induction l with
  | nil =>
      intro _ acc st
      simp [evalLoopM, M.ret]
  | cons r l ih =>
      intro hok acc st
      have hr : (env.infer r.1).isOk = true := hok r (List.mem_cons_self r l)
      cases hio : env.infer r.1 with
      | error e => rw [hio] at hr; simp [Except.isOk, Except.toBool] at hr
      | ok o =>
          have hl : ∀ r' ∈ l, (env.infer r'.1).isOk = true := fun r' hr' =>
            hok r' (List.mem_cons_of_mem r hr')
          have hiv : inferVal env r.1 = o := by simp [inferVal, hio]
          rw [evalLoopM]
          simp only [M.bind, liftE, hio]
          rw [ih hl]
          simp [hiv, List.replicate_succ]

/-- `accuracy_score` on the loop's two lists is the fraction of records
predicted correctly. -/
lemma accuracy_score_maps (env : Env) (hval : env.val ≠ []) :
    accuracy_score (env.val.map (fun r => r.2))
        (env.val.map (fun r => npArgmax (inferVal env r.1))) = some (scoreVal env) := by
  unfold accuracy_score
  rw [if_pos (by simp [hval])]
  unfold scoreVal countCorrect
  rw [List.zip_map', List.countP_map, List.length_map]
  rfl

/-- Full characterization of a run in which every library call succeeds:
the result, the operation trace, the printed report, the accuracy score and
the final filesystem. -/
lemma run_char (env : Env) (h : AllOk env) :
    resultOf env = Except.ok () ∧
    traceOf env = fullTrace env.val.length ∧
    outOf env = reportOf env ∧
    scoreOf env = some (scoreVal env) ∧
    ∀ p, fsOf env p = finalFs env p := by
  obtain ⟨hload, hconv, hwrite, hxxd, hinterp, halloc, hinfer, hval⟩ := h
  cases hL : env.loadModel with
  | error e => rw [hL] at hload; simp [Except.isOk, Except.toBool] at hload
  | ok m =>
  cases hR : representative_dataset_generator env.test with
  | none => simp [convertCall, hL, hR, Except.isOk, Except.toBool] at hconv
  | some rep =>
  cases hCv : env.convert m rep with
  | error e => simp [convertCall, hL, hR, hCv, Except.isOk, Except.toBool] at hconv
  | ok bs =>
  have hCB : convBytes env = bs := by simp [convBytes, convertCall, hL, hR, hCv]
  have hmatch : (match representative_dataset_generator env.test with
      | none => Except.error Err.stopIteration
      | some rep => env.convert m rep) = Except.ok bs := by rw [hR]; exact hCv
  have hinfer' : ∀ r ∈ env.val, (env.infer r.1).isOk = true := by
    rw [List.all_eq_true] at hinfer
    intro r hr
    exact hinfer r hr
  have hloop := evalLoopM_ok env env.val hinfer'
  have hacc := accuracy_score_maps env hval
  refine ⟨?_, ?_, ?_, ?_, ?_⟩
  · simp only [resultOf, runP, runPipeline, pipelineTail, initState, M.bind, M.ret, liftE, logStep, emit,
      setFile, setScore, xxdRun, shutilMove, reportSizes, statSize, interpLoadStep,
      accuracyStep, hL, hmatch, hwrite, hxxd, hinterp, halloc]
    simp only [hloop]
    simp [hacc, M.bind, setScore, emit]
  · simp only [traceOf, runP, runPipeline, pipelineTail, initState, M.bind, M.ret, liftE, logStep, emit,
      setFile, setScore, xxdRun, shutilMove, reportSizes, statSize, interpLoadStep,
      accuracyStep, hL, hmatch, hwrite, hxxd, hinterp, halloc]
    simp only [hloop]
    simp [hacc, M.bind, setScore, emit, fullTrace]
  · simp only [outOf, runP, runPipeline, pipelineTail, initState, M.bind, M.ret, liftE, logStep, emit,
      setFile, setScore, xxdRun, shutilMove, reportSizes, statSize, interpLoadStep,
      accuracyStep, hL, hmatch, hwrite, hxxd, hinterp, halloc]
    simp only [hloop]
    simp [hacc, M.bind, setScore, emit, reportOf, headerChars, hCB, scoreVal, fileSize]
  · simp only [scoreOf, runP, runPipeline, pipelineTail, initState, M.bind, M.ret, liftE, logStep, emit,
      setFile, setScore, xxdRun, shutilMove, reportSizes, statSize, interpLoadStep,
      accuracyStep, hL, hmatch, hwrite, hxxd, hinterp, halloc]
    simp only [hloop]
    simp [hacc, M.bind, setScore, emit]
  · intro p
    simp only [fsOf, runP, runPipeline, pipelineTail, initState, M.bind, M.ret, liftE, logStep, emit,
      setFile, setScore, xxdRun, shutilMove, reportSizes, statSize, interpLoadStep,
      accuracyStep, hL, hmatch, hwrite, hxxd, hinterp, halloc]
    simp only [hloop]
    by_cases h1 : p = artifactsHeaderPath
    · subst h1
      simp [hacc, M.bind, setScore, emit, finalFs, hCB]
    · by_cases h2 : p = picoHeaderPath
      · subst h2
        simp [hacc, M.bind, setScore, emit, finalFs, headerChars, hCB]
      · by_cases h3 : p = tflitePath
        · subst h3
          simp [hacc, M.bind, setScore, emit, finalFs, hCB]
        · simp [hacc, M.bind, setScore, emit, finalFs, h1, h2, h3]

/-! ### Trace bounds for arbitrary runs -/

/-- Whatever the interpreter does, the loop performs at most one
`evalRecord` per record, and exactly one per record when it succeeds. -/
lemma evalLoopM_bound (infer : NpArray → Except Err (List Int)) :
    ∀ (l : List (NpArray × Nat)) (acc : List Nat × List Nat),
      ∃ (k : Nat) (res : Except Err (List Nat × List Nat)),
        (∀ st, evalLoopM infer l acc st =
          (res, { st with trace := st.trace ++ List.replicate k Step.evalRecord })) ∧
        k ≤ l.length ∧ (res.isOk = true → k = l.length) := by
  intro l
  induction l with
  | nil =>
      intro acc
      exact ⟨0, Except.ok acc, fun st => by simp [evalLoopM, M.ret], by simp, fun _ => rfl⟩
  | cons r l ih =>
      intro acc
      cases hio : infer r.1 with
      | error e =>
          refine ⟨1, Except.error e, fun st => ?_, by simp, fun h => ?_⟩
          · rw [evalLoopM]
            simp [M.bind, liftE, hio, List.replicate]
          · simp [Except.isOk, Except.toBool] at h
      | ok o =>
          obtain ⟨k, res, heq, hk, hres⟩ := ih (acc.1 ++ [r.2], acc.2 ++ [npArgmax o])
          refine ⟨k + 1, res, fun st => ?_, by simpa using hk, fun h => by rw [hres h]; rfl⟩
          rw [evalLoopM]
          simp only [M.bind, liftE, hio]
          rw [heq]
          simp [List.replicate_succ]

/-- The accuracy cell appends exactly one step to the trace, whether or not
the metric computation raises. -/
lemma accuracyStep_trace (t p : List Nat) (st : PState) :
    ((accuracyStep t p) st).2.trace = st.trace ++ [Step.computeAccuracy] := by
  unfold accuracyStep
  simp only [M.bind, logStep]
  cases accuracy_score t p <;> simp [M.bind, setScore, emit]

/-- Trace bound for everything after the header move, given that both
produced files are on disk (which every run reaching this point
guarantees): the tail performs at most the remaining fixed operations in
order, all of them when it succeeds. -/
lemma pipelineTail_bound (env : Env) (st : PState) (ct cp : FileContent)
    (htf : st.fs tflitePath = some ct) (hp : st.fs picoHeaderPath = some cp) :
    (∃ u, (pipelineTail env st).2.trace ++ u =
        st.trace ++ [Step.reportSizes, Step.loadInterpreter, Step.allocateTensors]
          ++ List.replicate env.val.length Step.evalRecord ++ [Step.computeAccuracy]) ∧
    ((pipelineTail env st).1.isOk = true →
      (pipelineTail env st).2.trace =
        st.trace ++ [Step.reportSizes, Step.loadInterpreter, Step.allocateTensors]
          ++ List.replicate env.val.length Step.evalRecord ++ [Step.computeAccuracy]) := by
  cases hI : env.interpLoad with
  | error e =>
      constructor
      · refine ⟨[Step.allocateTensors] ++ List.replicate env.val.length Step.evalRecord
          ++ [Step.computeAccuracy], ?_⟩
        simp [pipelineTail, M.bind, M.ret, emit, reportSizes, logStep, statSize, htf, hp,
          interpLoadStep, hI]
      · intro hok
        simp [pipelineTail, M.bind, M.ret, emit, reportSizes, logStep, statSize, htf, hp,
          interpLoadStep, hI, Except.isOk, Except.toBool] at hok
  | ok u1 =>
  cases hA : env.alloc with
  | error e =>
      constructor
      · refine ⟨List.replicate env.val.length Step.evalRecord ++ [Step.computeAccuracy], ?_⟩
        simp [pipelineTail, M.bind, M.ret, emit, reportSizes, logStep, statSize, htf, hp,
          interpLoadStep, hI, liftE, hA]
      · intro hok
        simp [pipelineTail, M.bind, M.ret, emit, reportSizes, logStep, statSize, htf, hp,
          interpLoadStep, hI, liftE, hA, Except.isOk, Except.toBool] at hok
  | ok u2 =>
  obtain ⟨k, res, hloopB, hk, hres⟩ := evalLoopM_bound env.infer env.val ([], [])
  have hrep : List.replicate k Step.evalRecord
      ++ (List.replicate (env.val.length - k) Step.evalRecord ++ [Step.computeAccuracy])
      = List.replicate env.val.length Step.evalRecord ++ [Step.computeAccuracy] := by
    rw [← List.append_assoc, ← List.replicate_add]
    congr 2
    omega
  cases res with
  | error e =>
      constructor
      · refine ⟨List.replicate (env.val.length - k) Step.evalRecord
          ++ [Step.computeAccuracy], ?_⟩
        simp only [pipelineTail, M.bind, M.ret, emit, reportSizes, logStep, statSize, htf, hp,
          interpLoadStep, hI, liftE, hA, hloopB]
        simp only [List.append_assoc]
        rw [hrep]
        simp
      · intro hok
        simp [pipelineTail, M.bind, M.ret, emit, reportSizes, logStep, statSize, htf, hp,
          interpLoadStep, hI, liftE, hA, hloopB, Except.isOk, Except.toBool] at hok
  | ok tp =>
      have hkn : k = env.val.length := hres rfl
      have htr : (pipelineTail env st).2.trace =
          st.trace ++ [Step.reportSizes, Step.loadInterpreter, Step.allocateTensors]
            ++ List.replicate env.val.length Step.evalRecord ++ [Step.computeAccuracy] := by
        simp only [pipelineTail, M.bind, M.ret, emit, reportSizes, logStep, statSize, htf, hp,
          interpLoadStep, hI, liftE, hA, hloopB]
        rw [accuracyStep_trace]
        simp [hkn]
      exact ⟨⟨[], by rw [List.append_nil, htr]⟩, fun _ => htr⟩

/-- Every run, failing or not, performs an initial segment of the fixed
operation sequence, in order; a run that ends without an exception performs
all of it.  This is the absence of any retry, fallback or recovery branch:
nothing is ever re-run, skipped, or executed out of order. -/
lemma trace_bound (env : Env) :
    (∃ u, traceOf env ++ u = fullTrace env.val.length) ∧
    ((resultOf env).isOk = true → traceOf env = fullTrace env.val.length) := by
  cases hL : env.loadModel with
  | error e =>
      constructor
      · refine ⟨[Step.configureQuantization, Step.convert, Step.serializeBinary, Step.transcode,
          Step.moveHeader, Step.reportSizes, Step.loadInterpreter, Step.allocateTensors]
          ++ List.replicate env.val.length Step.evalRecord ++ [Step.computeAccuracy], ?_⟩
        simp [traceOf, runP, runPipeline, initState, M.bind, liftE, hL, fullTrace]
      · intro hok
        simp [resultOf, runP, runPipeline, initState, M.bind, liftE, hL,
          Except.isOk, Except.toBool] at hok
  | ok m =>
  cases hR : representative_dataset_generator env.test with
  | none =>
      constructor
      · refine ⟨[Step.serializeBinary, Step.transcode, Step.moveHeader, Step.reportSizes,
          Step.loadInterpreter, Step.allocateTensors]
          ++ List.replicate env.val.length Step.evalRecord ++ [Step.computeAccuracy], ?_⟩
        simp [traceOf, runP, runPipeline, initState, M.bind, liftE, logStep, hL, hR, fullTrace]
      · intro hok
        simp [resultOf, runP, runPipeline, initState, M.bind, liftE, logStep, hL, hR,
          Except.isOk, Except.toBool] at hok
  | some rep =>
  cases hCv : env.convert m rep with
  | error e =>
      constructor
      · refine ⟨[Step.serializeBinary, Step.transcode, Step.moveHeader, Step.reportSizes,
          Step.loadInterpreter, Step.allocateTensors]
          ++ List.replicate env.val.length Step.evalRecord ++ [Step.computeAccuracy], ?_⟩
        simp [traceOf, runP, runPipeline, initState, M.bind, liftE, logStep, hL, hR, hCv,
          fullTrace]
      · intro hok
        simp [resultOf, runP, runPipeline, initState, M.bind, liftE, logStep, hL, hR, hCv,
          Except.isOk, Except.toBool] at hok
  | ok bs =>
  cases hW : env.writeResult with
  | error e =>
      constructor
      · refine ⟨[Step.transcode, Step.moveHeader, Step.reportSizes,
          Step.loadInterpreter, Step.allocateTensors]
          ++ List.replicate env.val.length Step.evalRecord ++ [Step.computeAccuracy], ?_⟩
        simp [traceOf, runP, runPipeline, initState, M.bind, liftE, logStep, hL, hR, hCv, hW,
          fullTrace]
      · intro hok
        simp [resultOf, runP, runPipeline, initState, M.bind, liftE, logStep, hL, hR, hCv, hW,
          Except.isOk, Except.toBool] at hok
  | ok u0 =>
  cases hX : env.xxdLaunch with
  | error e =>
      constructor
      · refine ⟨[Step.moveHeader, Step.reportSizes,
          Step.loadInterpreter, Step.allocateTensors]
          ++ List.replicate env.val.length Step.evalRecord ++ [Step.computeAccuracy], ?_⟩
        simp [traceOf, runP, runPipeline, initState, M.bind, liftE, logStep, setFile, xxdRun,
          hL, hR, hCv, hW, hX, fullTrace]
      · intro hok
        simp [resultOf, runP, runPipeline, initState, M.bind, liftE, logStep, setFile, xxdRun,
          hL, hR, hCv, hW, hX, Except.isOk, Except.toBool] at hok
  | ok code =>
  by_cases hc : code = 0
  · subst hc
    have hred : runP env = pipelineTail env
        { fs := fun q => if q = artifactsHeaderPath then none
                else if q = picoHeaderPath then
                  some (FileContent.txt (xxdHeader (cIdentOf tfliteName) bs))
                else if q = artifactsHeaderPath then
                  some (FileContent.txt (xxdHeader (cIdentOf tfliteName) bs))
                else if q = tflitePath then some (FileContent.bin bs) else env.fs0 q,
          trace := [Step.loadModel, Step.configureQuantization, Step.convert,
                    Step.serializeBinary, Step.transcode, Step.moveHeader],
          out := [], score := none } := by
      simp [runP, runPipeline, initState, M.bind, liftE, logStep, setFile, xxdRun, shutilMove,
        hL, hR, hCv, hW, hX]
    obtain ⟨⟨u, hu⟩, himp⟩ := pipelineTail_bound env
      { fs := fun q => if q = artifactsHeaderPath then none
              else if q = picoHeaderPath then
                some (FileContent.txt (xxdHeader (cIdentOf tfliteName) bs))
              else if q = artifactsHeaderPath then
                some (FileContent.txt (xxdHeader (cIdentOf tfliteName) bs))
              else if q = tflitePath then some (FileContent.bin bs) else env.fs0 q,
        trace := [Step.loadModel, Step.configureQuantization, Step.convert,
                  Step.serializeBinary, Step.transcode, Step.moveHeader],
        out := [], score := none }
      (FileContent.bin bs) (FileContent.txt (xxdHeader (cIdentOf tfliteName) bs))
      (by simp) (by simp)
    constructor
    · refine ⟨u, ?_⟩
      rw [traceOf, hred, hu]
      simp [fullTrace]
    · intro hok
      rw [resultOf, hred] at hok
      rw [traceOf, hred, himp hok]
      simp [fullTrace]
  · cases h0 : env.fs0 artifactsHeaderPath with
    | none =>
        constructor
        · refine ⟨[Step.reportSizes, Step.loadInterpreter, Step.allocateTensors]
            ++ List.replicate env.val.length Step.evalRecord ++ [Step.computeAccuracy], ?_⟩
          simp [traceOf, runP, runPipeline, initState, M.bind, liftE, logStep, setFile, xxdRun,
            shutilMove, hL, hR, hCv, hW, hX, hc, h0, fullTrace]
        · intro hok
          simp [resultOf, runP, runPipeline, initState, M.bind, liftE, logStep, setFile, xxdRun,
            shutilMove, hL, hR, hCv, hW, hX, hc, h0, Except.isOk, Except.toBool] at hok
    | some cOld =>
        have hred : runP env = pipelineTail env
            { fs := fun q => if q = artifactsHeaderPath then none
                    else if q = picoHeaderPath then some cOld
                    else if q = tflitePath then some (FileContent.bin bs) else env.fs0 q,
              trace := [Step.loadModel, Step.configureQuantization, Step.convert,
                        Step.serializeBinary, Step.transcode, Step.moveHeader],
              out := [], score := none } := by
          simp [runP, runPipeline, initState, M.bind, liftE, logStep, setFile, xxdRun,
            shutilMove, hL, hR, hCv, hW, hX, hc, h0]
        obtain ⟨⟨u, hu⟩, himp⟩ := pipelineTail_bound env
          { fs := fun q => if q = artifactsHeaderPath then none
                  else if q = picoHeaderPath then some cOld
                  else if q = tflitePath then some (FileContent.bin bs) else env.fs0 q,
            trace := [Step.loadModel, Step.configureQuantization, Step.convert,
                      Step.serializeBinary, Step.transcode, Step.moveHeader],
            out := [], score := none }
          (FileContent.bin bs) cOld (by simp) (by simp)
        constructor
        · refine ⟨u, ?_⟩
          rw [traceOf, hred, hu]
          simp [fullTrace]
        · intro hok
          rw [resultOf, hred] at hok
          rw [traceOf, hred, himp hok]
          simp [fullTrace]

/-- Characterization of a run in which every library call succeeds except
the transcode: `xxd` exits with a nonzero status while a stale header sits
in `../artifacts`.  Nothing raises: the run completes, performs the full
operation sequence, and silently installs the stale header. -/
lemma run_char_stale (env : Env) (c : Int) (hcne : ¬ c = 0) (cOld : FileContent)
    (hload : env.loadModel.isOk = true)
    (hconv : (convertCall env).isOk = true)
    (hwrite : env.writeResult = Except.ok ())
    (hxxd : env.xxdLaunch = Except.ok c)
    (h0 : env.fs0 artifactsHeaderPath = some cOld)
    (hinterp : env.interpLoad = Except.ok ())
    (halloc : env.alloc = Except.ok ())
    (hinfer : env.val.all (fun r => (env.infer r.1).isOk) = true)
    (hval : env.val ≠ []) :
    resultOf env = Except.ok () ∧
    traceOf env = fullTrace env.val.length ∧
    fsOf env picoHeaderPath = some cOld := by
  cases hL : env.loadModel with
  | error e => rw [hL] at hload; simp [Except.isOk, Except.toBool] at hload
  | ok m =>
  cases hR : representative_dataset_generator env.test with
  | none => simp [convertCall, hL, hR, Except.isOk, Except.toBool] at hconv
  | some rep =>
  cases hCv : env.convert m rep with
  | error e => simp [convertCall, hL, hR, hCv, Except.isOk, Except.toBool] at hconv
  | ok bs =>
  have hmatch : (match representative_dataset_generator env.test with
      | none => Except.error Err.stopIteration
      | some rep => env.convert m rep) = Except.ok bs := by rw [hR]; exact hCv
  have hinfer' : ∀ r ∈ env.val, (env.infer r.1).isOk = true := by
    rw [List.all_eq_true] at hinfer
    intro r hr
    exact hinfer r hr
  have hloop := evalLoopM_ok env env.val hinfer'
  have hacc := accuracy_score_maps env hval
  refine ⟨?_, ?_, ?_⟩
  · simp only [resultOf, runP, runPipeline, pipelineTail, initState, M.bind, M.ret, liftE,
      logStep, emit, setFile, setScore, xxdRun, shutilMove, reportSizes, statSize,
      interpLoadStep, accuracyStep, hL, hmatch, hwrite, hxxd, hcne, h0, hinterp, halloc]
    simp only [hcne, if_false, h0]
    simp only [hloop]
    simp [hacc, M.bind, setScore, emit, hcne, h0]
  · simp only [traceOf, runP, runPipeline, pipelineTail, initState, M.bind, M.ret, liftE,
      logStep, emit, setFile, setScore, xxdRun, shutilMove, reportSizes, statSize,
      interpLoadStep, accuracyStep, hL, hmatch, hwrite, hxxd, hcne, h0, hinterp, halloc]
    simp only [hcne, if_false, h0]
    simp only [hloop]
    simp [hacc, M.bind, setScore, emit, fullTrace, hcne, h0]
  · simp only [fsOf, runP, runPipeline, pipelineTail, initState, M.bind, M.ret, liftE,
      logStep, emit, setFile, setScore, xxdRun, shutilMove, reportSizes, statSize,
      interpLoadStep, accuracyStep, hL, hmatch, hwrite, hxxd, hcne, h0, hinterp, halloc]
    simp only [hcne, if_false, h0]
    simp only [hloop]
    simp [hacc, M.bind, setScore, emit, hcne, h0]

/-! ### Remaining helper lemmas -/

/-- The run never consults the original Keras model's inference function:
replacing it changes nothing observable. -/
lemma keras_irrelevant (env : Env) (f : Nat → NpArray → List Int) :
    runP { env with kerasInfer := f } = runP env := by
  cases env
  rfl

/-- `accuracy_score` of the label list against any predicted list obtained
by mapping the same records. -/
lemma accuracy_score_maps_gen (l : List (NpArray × Nat)) (g : NpArray × Nat → Nat)
    (hne : l ≠ []) :
    accuracy_score (l.map (fun r => r.2)) (l.map g) =
      some (((l.countP (fun r => r.2 == g r) : Nat) : Rat) / ((l.length : Nat) : Rat)) := by
  unfold accuracy_score
  rw [if_pos (by simp [hne])]
  rw [List.zip_map', List.countP_map, List.length_map]
  rfl

/-- Any value `accuracy_score` returns lies in the unit interval. -/
lemma accuracy_score_unit (t p : List Nat) (q : Rat) (h : accuracy_score t p = some q) :
    0 ≤ q ∧ q ≤ 1 := by
  unfold accuracy_score at h
  split_ifs at h with hc
  · have hq : q = (((t.zip p).countP (fun ab => ab.1 == ab.2) : Nat) : Rat) / ((t.length : Nat) : Rat) := by
      exact (Option.some.injEq _ _ ▸ h).symm
    subst hq
    constructor
    · apply div_nonneg <;> positivity
    · rw [div_le_one (by
        have : t.length ≠ 0 := hc.2
        positivity)]
      have hle : (t.zip p).countP (fun ab => ab.1 == ab.2) ≤ t.length := by
        calc (t.zip p).countP (fun ab => ab.1 == ab.2) ≤ (t.zip p).length :=
              List.countP_le_length _
          _ ≤ t.length := by rw [List.length_zip]; omega
      exact_mod_cast hle

/-- Every library call of the tiny reference run succeeds. -/
lemma allOk_cEnv : AllOk cEnv := by
  constructor <;> first | rfl | decide

/-- Every library call of the modified-Keras-model run succeeds. -/
lemma allOk_cEnvB : AllOk cEnvB := by
  constructor <;> first | rfl | decide

/-! ### The claims -/

/-- C1: on a run in which every library call succeeds, the pipeline
performs its steps in the fixed order — load the model, configure
quantization (with the representative-dataset hook), convert, serialize the
binary, transcode it to the embeddable array, move the header, report
sizes, re-load the quantized model, allocate tensors, run inference once
per validation record, compute the accuracy — each step completing before
the next starts (the trace is this exact sequence). -/
theorem claim_C1 (env : Env) (h : AllOk env) :
    traceOf env = fullTrace env.val.length :=
  (run_char env h).2.1

theorem claim_C1_witness : traceOf cEnv = fullTrace cEnv.val.length :=
  claim_C1 cEnv allOk_cEnv

/-- C2 counterexample: two runs that differ only in the original Keras
model print the identical report and compute the identical score, while the
original model's validation accuracy differs — so nothing the program
computes quantifies the difference between the two accuracies; the original
model's accuracy never enters any computation. -/
theorem claim_C2_counterexample :
    outOf cEnvB = outOf cEnv ∧ scoreOf cEnvB = scoreOf cEnv ∧
    kerasAccuracy cEnvB ≠ kerasAccuracy cEnv := by
  have hA : kerasAccuracy cEnv = some 1 := by
    show accuracy_score _ _ = _
    norm_num [cEnv, img0, accuracy_score, npArgmax, npArgmaxAux]
  have hB : kerasAccuracy cEnvB = some 0 := by
    show accuracy_score _ _ = _
    norm_num [cEnvB, cEnv, img0, accuracy_score, npArgmax, npArgmaxAux]
  refine ⟨?_, ?_, ?_⟩
  · rw [outOf, outOf, cEnvB, keras_irrelevant]
  · rw [scoreOf, scoreOf, cEnvB, keras_irrelevant]
  · rw [hA, hB]
    simp

/-- C2 amended: the program computes and prints only the quantized model's
validation accuracy; the original model's accuracy enters no computation —
every observable of the run (printed report, score, result, trace, files)
is invariant under any change to the original model's inference behavior.
The comparison against the original accuracy exists only as prose in a
markdown cell. -/
theorem claim_C2_amended (env : Env) (f : Nat → NpArray → List Int) :
    outOf { env with kerasInfer := f } = outOf env ∧
    scoreOf { env with kerasInfer := f } = scoreOf env ∧
    resultOf { env with kerasInfer := f } = resultOf env := by
  have h := keras_irrelevant env f
  exact ⟨by rw [outOf, outOf, h], by rw [scoreOf, scoreOf, h], by rw [resultOf, resultOf, h]⟩

/-- C3: on every successful run, the accuracy score the program computes
(and prints, as a percentage) equals the number of validation records whose
true label equals the argmax of the quantized model's output on that
record, divided by the total number of validation records. -/
theorem claim_C3 (env : Env) (h : AllOk env) :
    scoreOf env = some (((countCorrect env : Nat) : Rat) / ((env.val.length : Nat) : Rat)) ∧
    PLine.num (scoreVal env * 100) ∈ outOf env := by
  have hc := run_char env h
  constructor
  · rw [hc.2.2.2.1]
    rfl
  · rw [hc.2.2.1]
    simp [reportOf]

theorem claim_C3_witness :
    scoreOf cEnv = some (((countCorrect cEnv : Nat) : Rat) / ((cEnv.val.length : Nat) : Rat)) ∧
    PLine.num (scoreVal cEnv * 100) ∈ outOf cEnv :=
  claim_C3 cEnv allOk_cEnv

/-- C4: on every successful run (whose converter output is a byte
sequence), the embeddable array produced by the transcoder encodes exactly
the serialized binary: the written `.tflite` file holds the converter's
bytes, the generated header is their `xxd -i` rendering, and decoding the
array in that header yields those bytes back, byte for byte. -/
theorem claim_C4 (env : Env) (h : AllOk env) (hb : ∀ b ∈ convBytes env, b < 256) :
    fsOf env tflitePath = some (FileContent.bin (convBytes env)) ∧
    fsOf env picoHeaderPath = some (FileContent.txt (headerChars env)) ∧
    decodeBytes (headerChars env) = convBytes env := by
  have hc := (run_char env h).2.2.2.2
  refine ⟨?_, ?_, ?_⟩
  · rw [hc tflitePath]
    simp [finalFs]
  · rw [hc picoHeaderPath]
    simp [finalFs]
  · exact decode_xxdHeader _ (by decide) _ hb

theorem claim_C4_witness :
    fsOf cEnv tflitePath = some (FileContent.bin (convBytes cEnv)) ∧
    fsOf cEnv picoHeaderPath = some (FileContent.txt (headerChars cEnv)) ∧
    decodeBytes (headerChars cEnv) = convBytes cEnv :=
  claim_C4 cEnv allOk_cEnv (by decide)

/-- C5 counterexample: a run in which the transcoding step fails — `xxd`
exits with status `1` — while a stale header sits in `../artifacts`.  The
failure raises nothing (`subprocess.run` is called without `check=True`),
the run does not stop there: it continues through the header move and every
later step and finishes without error. -/
theorem claim_C5_counterexample :
    cEnvStale.xxdLaunch = Except.ok 1 ∧ (1 : Int) ≠ 0 ∧
    resultOf cEnvStale = Except.ok () ∧
    traceOf cEnvStale = fullTrace 1 ∧
    fsOf cEnvStale picoHeaderPath = some (FileContent.txt ['o', 'l', 'd']) := by
  have h := run_char_stale cEnvStale 1 (by decide) (FileContent.txt ['o', 'l', 'd'])
    rfl rfl rfl rfl (by simp [cEnvStale]) rfl rfl rfl (by decide)
  exact ⟨rfl, by decide, h.1, h.2.1, h.2.2⟩

/-- C5 amended: the notebook contains no `try`/`except`: any raised
exception halts the run at the raising statement, so every run performs an
initial segment of the fixed operation sequence (no retry, fallback, or
recovery branch) and a run that finishes without an exception performs all
of it.  However, a transcoding failure signalled only by a nonzero `xxd`
exit status raises nothing and the run continues past it. -/
theorem claim_C5_amended (env : Env) :
    (∃ u, traceOf env ++ u = fullTrace env.val.length) ∧
    ((resultOf env).isOk = true → traceOf env = fullTrace env.val.length) :=
  trace_bound env

theorem claim_C5_witness : traceOf cEnvB = fullTrace cEnvB.val.length :=
  (claim_C5_amended cEnvB).2 (by rw [(run_char cEnvB allOk_cEnvB).1]; rfl)

/-- C6: the pipeline is deterministic straight-line code — the embedding is
a pure function of the run environment, so two runs on the same model,
datasets and library behavior are literally the same run — and its control
flow has no branching beyond the loop over validation records: any two
successful runs with equally many validation records execute the identical
operation sequence. -/
theorem claim_C6 (e1 e2 : Env) (h1 : AllOk e1) (h2 : AllOk e2)
    (hn : e1.val.length = e2.val.length) :
    traceOf e1 = traceOf e2 := by
  rw [(run_char e1 h1).2.1, (run_char e2 h2).2.1, hn]

theorem claim_C6_witness : traceOf cEnv = traceOf cEnvB :=
  claim_C6 cEnv cEnvB allOk_cEnv allOk_cEnvB rfl

/-- C7 counterexample: a successful run prints three numeric values (the
two file sizes and the accuracy percentage), not exactly two. -/
theorem claim_C7_counterexample :
    numericPrints (outOf cEnv) = 3 ∧ numericPrints (outOf cEnv) ≠ 2 := by
  have h : outOf cEnv = reportOf cEnv := (run_char cEnv allOk_cEnv).2.2.1
  have h3 : numericPrints (reportOf cEnv) = 3 := rfl
  exact ⟨by rw [h, h3], by rw [h, h3]; decide⟩

/-- C7 amended: beyond the library calls, the program's own printed report
consists of exactly four lines: one fixed status message and three numeric
values — the `.tflite` size in kilobytes, the header size in kilobytes, and
the validation accuracy as a percentage. -/
theorem claim_C7_amended (env : Env) (h : AllOk env) :
    numericPrints (outOf env) = 3 ∧
    outOf env = [PLine.msg "Model Converted",
      PLine.num (((convBytes env).length : Rat) / 1024),
      PLine.num (((headerChars env).length : Rat) / 1024),
      PLine.num (scoreVal env * 100)] := by
  have hc := (run_char env h).2.2.1
  refine ⟨?_, hc⟩
  rw [hc]
  rfl

theorem claim_C7_witness : numericPrints (outOf cEnv) = 3 :=
  (claim_C7_amended cEnv allOk_cEnv).1

/-- C8: the representative-dataset generator yields exactly one item per
image of the first batch of the test dataset and nothing else, each item a
singleton list holding that image converted to a float32 array of at least
four dimensions. -/
theorem claim_C8 (images : List NpArray) (labels : List Nat)
    (rest : List (List NpArray × List Nat)) :
    representative_dataset_generator ((images, labels) :: rest) =
      some (images.map (fun image => [npAsFloat32Ndmin4 image])) ∧
    ∀ a : NpArray, (npAsFloat32Ndmin4 a).dtype = Dtype.float32 ∧
      4 ≤ (npAsFloat32Ndmin4 a).shape.length := by
  refine ⟨rfl, fun a => ⟨rfl, ?_⟩⟩
  by_cases hs : 4 ≤ a.shape.length
  · simp [npAsFloat32Ndmin4, hs]
  · simp [npAsFloat32Ndmin4, hs]
    omega

/-- C9: at every iteration of the evaluation loop the true-label and
predicted-label lists have equal length (one entry appended to each per
record, in iteration order), so after the loop both have length equal to
the number of validation records, the accuracy computation is well defined
on any nonempty record list, and the score lies in `[0, 1]`. -/
theorem claim_C9 (infer : NpArray → List Int) (records : List (NpArray × Nat)) :
    (∀ k, (evalLoop infer (records.take k)).1.length = (records.take k).length ∧
          (evalLoop infer (records.take k)).2.length = (records.take k).length) ∧
    evalLoop infer records =
      (records.map (fun r => r.2), records.map (fun r => npArgmax (infer r.1))) ∧
    (records ≠ [] → ∃ q,
      accuracy_score (evalLoop infer records).1 (evalLoop infer records).2 = some q ∧
      0 ≤ q ∧ q ≤ 1) := by
  refine ⟨?_, evalLoop_eq infer records, ?_⟩
  · intro k
    rw [evalLoop_eq]
    simp
  · intro hne
    rw [evalLoop_eq]
    refine ⟨_, accuracy_score_maps_gen records _ hne, ?_⟩
    exact accuracy_score_unit _ _ _ (accuracy_score_maps_gen records _ hne)

theorem claim_C9_witness : ∃ q,
    accuracy_score (evalLoop (fun _ => [0, 5]) [(img0, 1)]).1
      (evalLoop (fun _ => [0, 5]) [(img0, 1)]).2 = some q ∧ 0 ≤ q ∧ q ≤ 1 :=
  (claim_C9 (fun _ => [0, 5]) [(img0, 1)]).2.2 (by decide)

/-- C10: after a successful run, `../artifacts/eurosat.tflite` contains
exactly the bytes the converter returned; the generated header exists only
at `../lite/pico/eurosat.h` and is no longer present in `../artifacts`;
and every other path on the filesystem is untouched. -/
theorem claim_C10 (env : Env) (h : AllOk env) :
    fsOf env tflitePath = some (FileContent.bin (convBytes env)) ∧
    fsOf env picoHeaderPath = some (FileContent.txt (headerChars env)) ∧
    fsOf env artifactsHeaderPath = none ∧
    ∀ p, p ≠ tflitePath → p ≠ picoHeaderPath → p ≠ artifactsHeaderPath →
      fsOf env p = env.fs0 p := by
  have hc := (run_char env h).2.2.2.2
  refine ⟨?_, ?_, ?_, ?_⟩
  · rw [hc tflitePath]
    simp [finalFs]
  · rw [hc picoHeaderPath]
    simp [finalFs]
  · rw [hc artifactsHeaderPath]
    simp [finalFs]
  · intro p h1 h2 h3
    rw [hc p]
    simp [finalFs, h1, h2, h3]

theorem claim_C10_witness :
    fsOf cEnv tflitePath = some (FileContent.bin (convBytes cEnv)) ∧
    fsOf cEnv "../artifacts/eurosat.keras" = none := by
  have h := claim_C10 cEnv allOk_cEnv
  exact ⟨h.1, by rw [h.2.2.2 _ (by decide) (by decide) (by decide)]; rfl⟩

end EurosatPico
